import Mathlib

/-!
Shallow embedding of the autonomous-car simulator core
(config/config.py, alu_decision.py, physics.py, src/physics.py, sensors.py),
with theorems settling the specification claims about it.

Decision-engine and collision arithmetic is over `ℚ` (Python floats carrying
exact decimal literals in the scenarios of interest), with `WithTop ℚ`
standing for `float('inf')` as produced by `dict.get(key, float('inf'))`
and by the stopped-vehicle TTC.  The geometric parts (boundary reflection
with `math.pi`, sensor raycasting with `math.sqrt`) are over `ℝ`.
-/

namespace AutoCar

/-- The five FSM states (config.py, class VehicleState). -/
inductive VState
  | CRUISE
  | AVOID_LEFT
  | AVOID_RIGHT
  | EMERGENCY_BRAKE
  | REVERSING
  deriving DecidableEq, Repr

/-- One driving profile: the five threshold fields of a DRIVING_MODES entry
(config.py). -/
structure Profile where
  danger_threshold : ℚ
  warning_threshold : ℚ
  max_speed : ℚ
  ttc_threshold : ℚ
  hysteresis_cycles : ℕ
  deriving DecidableEq, Repr

/-- config.py DRIVING_MODES['cautious']. -/
def cautious : Profile := ⟨3, 5, 2, 3, 5⟩

/-- config.py DRIVING_MODES['normal']. -/
def normalMode : Profile := ⟨2, 7/2, 7/2, 2, 3⟩

/-- config.py DRIVING_MODES['aggressive']. -/
def aggressive : Profile := ⟨1, 2, 5, 1, 2⟩

/-- config.py DRIVING_MODES, as an association list keyed by mode name. -/
def DRIVING_MODES : List (String × Profile) :=
  [("cautious", cautious), ("normal", normalMode), ("aggressive", aggressive)]

/-- A sensor-reading map `{FL, FR, BL, BR}`.  `none` models an absent key
in the Python dict. -/
structure Readings where
  FL : Option ℚ
  FR : Option ℚ
  BL : Option ℚ
  BR : Option ℚ
  deriving DecidableEq, Repr

/-- `sensor_readings.get(name, float('inf'))`: an absent key reads as `∞`. -/
def toW : Option ℚ → WithTop ℚ
  | none => ⊤
  | some d => (d : WithTop ℚ)

/-- `min(FL, FR)` as computed in ALUDecisionEngine.determine_next_state. -/
def frontDistance (r : Readings) : WithTop ℚ := min (toW r.FL) (toW r.FR)

/-- `min(BL, BR)` as computed in the REVERSING branch of determine_next_state. -/
def backDistance (r : Readings) : WithTop ℚ := min (toW r.BL) (toW r.BR)

/-- Per-sensor danger value, the body of the loop in
ALUDecisionEngine.calculate_hazard_score (alu_decision.py lines 76-86). -/
def dangerValue (p : Profile) (d : ℚ) : ℚ :=
  if d ≤ p.danger_threshold then 1
  else if d ≤ p.warning_threshold then
    (p.warning_threshold - d) / (p.warning_threshold - p.danger_threshold)
  else 0

/-- The distances present in the reading dict, in field order; absent keys
simply do not appear in `sensor_readings.items()`. -/
def presentReadings (r : Readings) : List ℚ :=
  [r.FL, r.FR, r.BL, r.BR].filterMap id

/-- ALUDecisionEngine.calculate_hazard_score: running maximum of the danger
values over the entries of the reading dict, starting from 0.0. -/
def calculate_hazard_score (p : Profile) (r : Readings) : ℚ :=
  (presentReadings r).foldl (fun m d => max m (dangerValue p d)) 0

/-- ALUDecisionEngine.calculate_ttc: `inf` when `current_speed < 0.01`,
otherwise `front_distance / current_speed` (and `inf / speed = inf`). -/
def calculate_ttc (front : WithTop ℚ) (speed : ℚ) : WithTop ℚ :=
  if speed < 1/100 then ⊤
  else WithTop.map (fun d => d / speed) front

/-- ALUDecisionEngine.determine_next_state (alu_decision.py lines 115-214). -/
def determine_next_state (p : Profile) (cur : VState) (r : Readings)
    (speed : ℚ) : VState :=
  let FLd := toW r.FL
  let FRd := toW r.FR
  let front := min FLd FRd
  let ttc := calculate_ttc front speed
  let danger := p.danger_threshold
  if ttc < (p.ttc_threshold : WithTop ℚ) ∧ 1/2 < speed then
    VState.EMERGENCY_BRAKE
  else
    match cur with
    | VState.EMERGENCY_BRAKE =>
        if ((danger * (3/2) : ℚ) : WithTop ℚ) < front then VState.CRUISE
        else if speed < 1/10 then VState.REVERSING
        else VState.EMERGENCY_BRAKE
    | VState.REVERSING =>
        let back := min (toW r.BL) (toW r.BR)
        if back < (danger : WithTop ℚ) then VState.EMERGENCY_BRAKE
        else if ((danger * 2 : ℚ) : WithTop ℚ) < front then VState.CRUISE
        else VState.REVERSING
    | VState.AVOID_LEFT =>
        if ((danger * (3/2) : ℚ) : WithTop ℚ) < FLd ∧
           ((danger * (3/2) : ℚ) : WithTop ℚ) < FRd then VState.CRUISE
        else if FRd < (danger : WithTop ℚ) then VState.AVOID_RIGHT
        else VState.AVOID_LEFT
    | VState.AVOID_RIGHT =>
        if ((danger * (3/2) : ℚ) : WithTop ℚ) < FLd ∧
           ((danger * (3/2) : ℚ) : WithTop ℚ) < FRd then VState.CRUISE
        else if FLd < (danger : WithTop ℚ) then VState.AVOID_LEFT
        else VState.AVOID_RIGHT
    | VState.CRUISE =>
        if front < (danger : WithTop ℚ) then
          if FLd < (danger : WithTop ℚ) ∧ FRd < (danger : WithTop ℚ) then
            VState.EMERGENCY_BRAKE
          else if FLd < FRd then VState.AVOID_RIGHT
          else VState.AVOID_LEFT
        else VState.CRUISE

/-- The mutable fields of an ALUDecisionEngine instance. -/
structure Engine where
  mode : String
  config : Profile
  current_state : VState
  state_candidate : VState
  state_hold_count : ℕ
  hysteresis_threshold : ℕ
  hazard_score : ℚ
  ttc : WithTop ℚ
  state_history : List VState
  deriving DecidableEq, Repr

/-- The field initialisation done by ALUDecisionEngine.__init__ once the
profile lookup has succeeded. -/
def initEngine (m : String) (p : Profile) : Engine :=
  ⟨m, p, VState.CRUISE, VState.CRUISE, 0, p.hysteresis_cycles, 0, ⊤, []⟩

/-- ALUDecisionEngine.__init__: `DRIVING_MODES[mode]` raises an uncaught
KeyError when the mode name is not a key of the table. -/
def mkEngine (mode : String) : Except String Engine :=
  match DRIVING_MODES.lookup mode with
  | some p => Except.ok (initEngine mode p)
  | none => Except.error "KeyError"

/-- ALUDecisionEngine.set_mode: update mode, config and hysteresis threshold
when the name is recognised, otherwise fall through without any effect. -/
def set_mode (e : Engine) (mode : String) : Engine :=
  match DRIVING_MODES.lookup mode with
  | some p =>
      { e with mode := mode, config := p,
               hysteresis_threshold := p.hysteresis_cycles }
  | none => e

/-- ALUDecisionEngine.update_state (alu_decision.py lines 216-249):
run determine_next_state (which stores hazard score and ttc), apply the
hysteresis rule, commit on `hold_count ≥ threshold`, append to history. -/
def update_state (e : Engine) (r : Readings) (speed : ℚ) : Engine :=
  let desired := determine_next_state e.config e.current_state r speed
  let e1 := { e with hazard_score := calculate_hazard_score e.config r,
                     ttc := calculate_ttc (frontDistance r) speed }
  let e2 :=
    if desired = e1.state_candidate then
      { e1 with state_hold_count := e1.state_hold_count + 1 }
    else
      { e1 with state_candidate := desired, state_hold_count := 1 }
  let e3 :=
    if e2.hysteresis_threshold ≤ e2.state_hold_count then
      { e2 with current_state := e2.state_candidate }
    else e2
  { e3 with state_history := e3.state_history ++ [e3.current_state] }

/-- The per-sensor danger value exactly as the specification words it:
`1.0` if `d ≤ danger_threshold`, the linear ramp
`(warning_threshold − d) / (warning_threshold − danger_threshold)` if
`danger_threshold < d ≤ warning_threshold`, and `0.0` otherwise.  Kept
separate from `dangerValue` (which is translated from the source) so that
the two can be compared. -/
def specDangerValue (p : Profile) (d : ℚ) : ℚ :=
  if d ≤ p.danger_threshold then 1
  else if p.danger_threshold < d ∧ d ≤ p.warning_threshold then
    (p.warning_threshold - d) / (p.warning_threshold - p.danger_threshold)
  else 0

lemma dangerValue_nonneg (p : Profile) (d : ℚ) : 0 ≤ dangerValue p d := by
  unfold dangerValue
  split_ifs with h1 h2
  · norm_num
  · have hd : p.danger_threshold < d := not_le.mp h1
    apply div_nonneg <;> linarith
  · exact le_refl 0

lemma dangerValue_le_one (p : Profile) (d : ℚ) : dangerValue p d ≤ 1 := by
  unfold dangerValue
  split_ifs with h1 h2
  · exact le_refl 1
  · have hd : p.danger_threshold < d := not_le.mp h1
    have hden : 0 < p.warning_threshold - p.danger_threshold := by linarith
    rw [div_le_one hden]
    linarith
  · norm_num

lemma dangerValue_eq_spec (p : Profile) (d : ℚ) :
    dangerValue p d = specDangerValue p d := by
  unfold dangerValue specDangerValue
  by_cases h1 : d ≤ p.danger_threshold
  · simp [h1]
  · have hd : p.danger_threshold < d := not_le.mp h1
    simp [h1, hd]

lemma hazard_eq_max (p : Profile) (a b c d : ℚ) :
    calculate_hazard_score p ⟨some a, some b, some c, some d⟩ =
      max (max (max (dangerValue p a) (dangerValue p b)) (dangerValue p c))
        (dangerValue p d) := by
  simp only [calculate_hazard_score, presentReadings, List.filterMap,
    Option.some.injEq, List.foldl]
  rw [max_eq_right (dangerValue_nonneg p a)]

/-- C2: for a full reading map the hazard score is the maximum of the four
per-sensor danger values (as the spec defines them), it lies in `[0, 1]`,
and it saturates to `1` whenever some distance is at or below the danger
threshold. -/
theorem c2_hazard_score_is_max_danger (p : Profile) (a b c d : ℚ) :
    calculate_hazard_score p ⟨some a, some b, some c, some d⟩ =
      max (max (max (specDangerValue p a) (specDangerValue p b))
        (specDangerValue p c)) (specDangerValue p d) ∧
    0 ≤ calculate_hazard_score p ⟨some a, some b, some c, some d⟩ ∧
    calculate_hazard_score p ⟨some a, some b, some c, some d⟩ ≤ 1 ∧
    ((a ≤ p.danger_threshold ∨ b ≤ p.danger_threshold ∨
      c ≤ p.danger_threshold ∨ d ≤ p.danger_threshold) →
      calculate_hazard_score p ⟨some a, some b, some c, some d⟩ = 1) := by
  have hmax := hazard_eq_max p a b c d
  have hub : calculate_hazard_score p ⟨some a, some b, some c, some d⟩ ≤ 1 := by
    rw [hmax]
    exact max_le (max_le (max_le (dangerValue_le_one p a)
      (dangerValue_le_one p b)) (dangerValue_le_one p c)) (dangerValue_le_one p d)
  refine ⟨by rw [hmax, dangerValue_eq_spec, dangerValue_eq_spec,
      dangerValue_eq_spec, dangerValue_eq_spec], ?_, hub, ?_⟩
  · rw [hmax]
    exact le_trans (dangerValue_nonneg p a)
      (le_trans (le_max_left _ _) (le_trans (le_max_left _ _) (le_max_left _ _)))
  · intro hsat
    refine le_antisymm hub ?_
    rw [hmax]
    rcases hsat with h | h | h | h
    · have : dangerValue p a = 1 := by simp [dangerValue, h]
      calc (1 : ℚ) = dangerValue p a := this.symm
        _ ≤ _ := le_trans (le_max_left _ _)
            (le_trans (le_max_left _ _) (le_max_left _ _))
    · have : dangerValue p b = 1 := by simp [dangerValue, h]
      calc (1 : ℚ) = dangerValue p b := this.symm
        _ ≤ _ := le_trans (le_max_right _ _)
            (le_trans (le_max_left _ _) (le_max_left _ _))
    · have : dangerValue p c = 1 := by simp [dangerValue, h]
      calc (1 : ℚ) = dangerValue p c := this.symm
        _ ≤ _ := le_trans (le_max_right _ _) (le_max_left _ _)
    · have : dangerValue p d = 1 := by simp [dangerValue, h]
      calc (1 : ℚ) = dangerValue p d := this.symm
        _ ≤ _ := le_max_right _ _

/-- Witness for C2 at the normal profile and readings
`{FL:1, FR:10, BL:10, BR:10}`. -/
theorem c2_hazard_score_is_max_danger_witness :
    calculate_hazard_score normalMode ⟨some 1, some 10, some 10, some 10⟩ =
      max (max (max (specDangerValue normalMode 1) (specDangerValue normalMode 10))
        (specDangerValue normalMode 10)) (specDangerValue normalMode 10) ∧
    0 ≤ calculate_hazard_score normalMode ⟨some 1, some 10, some 10, some 10⟩ ∧
    calculate_hazard_score normalMode ⟨some 1, some 10, some 10, some 10⟩ ≤ 1 ∧
    (((1 : ℚ) ≤ normalMode.danger_threshold ∨ (10 : ℚ) ≤ normalMode.danger_threshold ∨
      (10 : ℚ) ≤ normalMode.danger_threshold ∨ (10 : ℚ) ≤ normalMode.danger_threshold) →
      calculate_hazard_score normalMode ⟨some 1, some 10, some 10, some 10⟩ = 1) :=
  c2_hazard_score_is_max_danger normalMode 1 10 10 10

/-- C1: on readings `{FL:1, FR:10, BL:10, BR:10}` at speed `2.0` in the
normal profile from state `CRUISE`, the next-state computation returns
`EMERGENCY_BRAKE` (the predictive TTC override fires: `ttc = 0.5 < 2.0`
and `speed > 0.5`), not the `AVOID_RIGHT` the spec scenario and the
repository's own unit test expect. -/
theorem c1_scenario3_evaluates_to_emergency_brake :
    determine_next_state normalMode VState.CRUISE
      ⟨some 1, some 10, some 10, some 10⟩ 2 = VState.EMERGENCY_BRAKE ∧
    determine_next_state normalMode VState.CRUISE
      ⟨some 1, some 10, some 10, some 10⟩ 2 ≠ VState.AVOID_RIGHT := by
  have h : determine_next_state normalMode VState.CRUISE
      ⟨some 1, some 10, some 10, some 10⟩ 2 = VState.EMERGENCY_BRAKE := by
    simp only [determine_next_state, calculate_ttc, frontDistance, toW, normalMode]
    norm_num [← WithTop.coe_min, ← WithTop.coe_ofNat, WithTop.coe_lt_coe,
      WithTop.coe_le_coe, min_def]
  exact ⟨h, by rw [h]; exact fun hc => VState.noConfusion hc⟩

/-- C10: `set_mode` never touches the FSM fields; a recognised name swaps
mode, config and hysteresis threshold wholesale, an unrecognised name
leaves the engine entirely unchanged and raises nothing. -/
theorem c10_set_mode_frame (e : Engine) (m : String) :
    (set_mode e m).current_state = e.current_state ∧
    (set_mode e m).state_candidate = e.state_candidate ∧
    (set_mode e m).state_hold_count = e.state_hold_count ∧
    (∀ p, DRIVING_MODES.lookup m = some p →
      set_mode e m = { e with mode := m, config := p,
                              hysteresis_threshold := p.hysteresis_cycles }) ∧
    (DRIVING_MODES.lookup m = none → set_mode e m = e) := by
  unfold set_mode
  cases h : DRIVING_MODES.lookup m with
  | some p => simp_all
  | none => simp_all

/-- Witness for C10: switching a fresh normal-mode engine to `cautious`. -/
theorem c10_set_mode_frame_witness :
    set_mode (initEngine "normal" normalMode) "cautious" =
      { initEngine "normal" normalMode with
          mode := "cautious", config := cautious,
          hysteresis_threshold := cautious.hysteresis_cycles } :=
  (c10_set_mode_frame (initEngine "normal" normalMode) "cautious").2.2.2.1
    cautious rfl

/-- C5 counterexample: switching to the unknown mode name `"turbo"`
mid-session does not fail at all — `set_mode` silently returns with the
engine unchanged, contradicting the claimed `ConfigError`. -/
theorem c5_unknown_mode_counterexample :
    set_mode (initEngine "normal" normalMode) "turbo" =
      initEngine "normal" normalMode := rfl

/-- C5 (amended): an unknown mode name at construction raises an uncaught
`KeyError` from the `DRIVING_MODES[mode]` lookup (so no engine is built and
no tick runs), while `set_mode` with an unknown name raises nothing and
leaves every engine field unchanged (so thresholds are never half-updated). -/
theorem c5_unknown_mode_behaviour (m : String)
    (h : DRIVING_MODES.lookup m = none) :
    mkEngine m = Except.error "KeyError" ∧ ∀ e : Engine, set_mode e m = e := by
  constructor
  · unfold mkEngine
    rw [h]
  · intro e
    unfold set_mode
    rw [h]

/-- Witness for C5 at the unknown name `"turbo"`. -/
theorem c5_unknown_mode_behaviour_witness :
    mkEngine "turbo" = Except.error "KeyError" ∧
    set_mode (initEngine "aggressive" aggressive) "turbo" =
      initEngine "aggressive" aggressive :=
  ⟨(c5_unknown_mode_behaviour "turbo" rfl).1,
   (c5_unknown_mode_behaviour "turbo" rfl).2 _⟩

/-- C7: with both forward readings present, the front distance is their
minimum, the TTC is `∞` exactly when `speed < 0.01`, and otherwise it is
exactly `front_distance / speed` with a nonzero divisor. -/
theorem c7_ttc_characterisation (r : Readings) (a b sp : ℚ)
    (hFL : r.FL = some a) (hFR : r.FR = some b) :
    frontDistance r = ((min a b : ℚ) : WithTop ℚ) ∧
    (calculate_ttc (frontDistance r) sp = ⊤ ↔ sp < 1/100) ∧
    (¬ sp < 1/100 →
      calculate_ttc (frontDistance r) sp = ((min a b / sp : ℚ) : WithTop ℚ) ∧
      sp ≠ 0) := by
  have hfront : frontDistance r = ((min a b : ℚ) : WithTop ℚ) := by
    rw [frontDistance, hFL, hFR]
    simp [toW, WithTop.coe_min]
  refine ⟨hfront, ?_, ?_⟩
  · rw [hfront]
    unfold calculate_ttc
    split_ifs with h
    · exact iff_of_true rfl h
    · rw [WithTop.map_coe]
      exact iff_of_false WithTop.coe_ne_top h
  · intro h
    rw [hfront]
    unfold calculate_ttc
    rw [if_neg h, WithTop.map_coe]
    refine ⟨rfl, ?_⟩
    have h2 : (1 : ℚ)/100 ≤ sp := not_lt.mp h
    intro h0
    rw [h0] at h2
    norm_num at h2

/-- Witness for C7 at readings `{FL:4, FR:6, BL:10, BR:10}` and speed 2. -/
theorem c7_ttc_characterisation_witness :
    frontDistance ⟨some 4, some 6, some 10, some 10⟩ =
      ((min (4 : ℚ) 6 : ℚ) : WithTop ℚ) ∧
    (calculate_ttc (frontDistance ⟨some 4, some 6, some 10, some 10⟩) 2 = ⊤ ↔
      (2 : ℚ) < 1/100) ∧
    (¬ (2 : ℚ) < 1/100 →
      calculate_ttc (frontDistance ⟨some 4, some 6, some 10, some 10⟩) 2 =
        ((min (4 : ℚ) 6 / 2 : ℚ) : WithTop ℚ) ∧ (2 : ℚ) ≠ 0) :=
  c7_ttc_characterisation _ 4 6 2 rfl rfl

lemma update_state_fields (e : Engine) (r : Readings) (sp : ℚ) :
    (update_state e r sp).config = e.config ∧
    (update_state e r sp).hysteresis_threshold = e.hysteresis_threshold ∧
    (update_state e r sp).state_candidate =
      (if determine_next_state e.config e.current_state r sp = e.state_candidate
       then e.state_candidate
       else determine_next_state e.config e.current_state r sp) ∧
    (update_state e r sp).state_hold_count =
      (if determine_next_state e.config e.current_state r sp = e.state_candidate
       then e.state_hold_count + 1 else 1) ∧
    (update_state e r sp).current_state =
      (if e.hysteresis_threshold ≤
          (if determine_next_state e.config e.current_state r sp = e.state_candidate
           then e.state_hold_count + 1 else 1)
       then (if determine_next_state e.config e.current_state r sp = e.state_candidate
             then e.state_candidate
             else determine_next_state e.config e.current_state r sp)
       else e.current_state) := by
  simp only [update_state]
  split_ifs <;> simp_all

lemma hysteresis_iterate (e : Engine) (r : Readings) (sp : ℚ) (k : ℕ)
    (hnew : determine_next_state e.config e.current_state r sp ≠ e.state_candidate)
    (h1 : 1 ≤ k) (hk : k + 1 ≤ e.hysteresis_threshold) :
    ((fun e' => update_state e' r sp)^[k] e).config = e.config ∧
    ((fun e' => update_state e' r sp)^[k] e).hysteresis_threshold =
      e.hysteresis_threshold ∧
    ((fun e' => update_state e' r sp)^[k] e).current_state = e.current_state ∧
    ((fun e' => update_state e' r sp)^[k] e).state_candidate =
      determine_next_state e.config e.current_state r sp ∧
    ((fun e' => update_state e' r sp)^[k] e).state_hold_count = k := by
  induction k with
  | zero => omega
  | succ n ih =>
    rcases Nat.eq_zero_or_pos n with hn | hn
    · subst hn
      obtain ⟨hc, hh, hcand, hhold, hcur⟩ := update_state_fields e r sp
      rw [if_neg hnew] at hcand hhold hcur
      rw [if_neg (by omega)] at hcur
      simpa using ⟨hc, hh, hcur, hcand, hhold⟩
    · have hk' : n + 1 ≤ e.hysteresis_threshold := by omega
      obtain ⟨ic, ih', icur, icand, ihold⟩ := ih hn hk'
      set w := (fun e' => update_state e' r sp)^[n] e with hw
      have hstep : (fun e' => update_state e' r sp)^[n + 1] e =
          update_state w r sp := by
        rw [Function.iterate_succ_apply']
      obtain ⟨hc, hh, hcand, hhold, hcur⟩ := update_state_fields w r sp
      have hd : determine_next_state w.config w.current_state r sp =
          determine_next_state e.config e.current_state r sp := by
        rw [ic, icur]
      rw [hd, icand, if_pos rfl] at hcand hhold hcur
      rw [ihold] at hhold hcur
      rw [ih'] at hcur
      rw [if_neg (by omega)] at hcur
      exact ⟨by rw [hstep, hc, ic], by rw [hstep, hh, ih'],
        by rw [hstep, hcur, icur], by rw [hstep, hcand],
        by rw [hstep, hhold]⟩

/-- C3: the hysteresis tracker resets `hold_count` to 1 when the computed
candidate differs from the tracked one, increments it otherwise, and commits
the candidate exactly when `hold_count ≥ N`; hence a fresh unchanging
candidate leaves the active state untouched for the first `N−1` update
calls and is committed on the `N`-th. -/
theorem c3_hysteresis_commit (e : Engine) (r : Readings) (sp : ℚ) (N : ℕ)
    (hN : e.hysteresis_threshold = N) (hpos : 0 < N)
    (hnew : determine_next_state e.config e.current_state r sp ≠
      e.state_candidate) :
    (∀ e' : Engine, (update_state e' r sp).state_hold_count =
      (if determine_next_state e'.config e'.current_state r sp = e'.state_candidate
       then e'.state_hold_count + 1 else 1)) ∧
    (∀ e' : Engine, (update_state e' r sp).current_state =
      (if e'.hysteresis_threshold ≤ (update_state e' r sp).state_hold_count
       then (update_state e' r sp).state_candidate else e'.current_state)) ∧
    (∀ k, k ≤ N - 1 →
      ((fun e' => update_state e' r sp)^[k] e).current_state = e.current_state) ∧
    ((fun e' => update_state e' r sp)^[N] e).current_state =
      determine_next_state e.config e.current_state r sp := by
  refine ⟨fun e' => (update_state_fields e' r sp).2.2.2.1, ?_, ?_, ?_⟩
  · intro e'
    obtain ⟨_, _, hcand, hhold, hcur⟩ := update_state_fields e' r sp
    rw [hcand, hhold, hcur]
  · intro k hk
    rcases Nat.eq_zero_or_pos k with h0 | h0
    · subst h0
      rfl
    · exact (hysteresis_iterate e r sp k hnew h0 (by omega)).2.2.1
  · rcases Nat.lt_or_ge 1 N with h2 | h2
    · have hpred : N - 1 + 1 = N := by omega
      obtain ⟨ic, ih', icur, icand, ihold⟩ :=
        hysteresis_iterate e r sp (N - 1) hnew (by omega) (by omega)
      set w := (fun e' => update_state e' r sp)^[N - 1] e with hw
      have hstep : (fun e' => update_state e' r sp)^[N] e =
          update_state w r sp := by
        conv_lhs => rw [← hpred]
        rw [Function.iterate_succ_apply']
      obtain ⟨_, _, hcand, hhold, hcur⟩ := update_state_fields w r sp
      have hd : determine_next_state w.config w.current_state r sp =
          determine_next_state e.config e.current_state r sp := by
        rw [ic, icur]
      rw [hd, icand, if_pos rfl, ihold, ih', hN, hpred, if_pos le_rfl] at hcur
      rw [hstep, hcur, if_pos rfl]
    · have hN1 : N = 1 := by omega
      subst hN1
      obtain ⟨_, _, hcand, hhold, hcur⟩ := update_state_fields e r sp
      rw [if_neg hnew] at hcand hhold hcur
      rw [hN, if_pos le_rfl] at hcur
      have hstep : (fun e' => update_state e' r sp)^[1] e = update_state e r sp := by
        rw [Function.iterate_one]
      rw [hstep, hcur, if_neg hnew]

/-- Witness for C3: the normal profile has `hysteresis_cycles = 3`; feeding
`{FL:1, FR:10, BL:10, BR:10}` at speed 2 to a fresh engine leaves the active
state at `CRUISE` after 2 update calls and commits `EMERGENCY_BRAKE` on the
third. -/
theorem c3_hysteresis_commit_witness :
    ((fun e' => update_state e' ⟨some 1, some 10, some 10, some 10⟩ 2)^[2]
      (initEngine "normal" normalMode)).current_state = VState.CRUISE ∧
    ((fun e' => update_state e' ⟨some 1, some 10, some 10, some 10⟩ 2)^[3]
      (initEngine "normal" normalMode)).current_state =
        VState.EMERGENCY_BRAKE := by
  have hd : determine_next_state (initEngine "normal" normalMode).config
      (initEngine "normal" normalMode).current_state
      ⟨some 1, some 10, some 10, some 10⟩ 2 = VState.EMERGENCY_BRAKE := by
    simp only [initEngine, determine_next_state, calculate_ttc, frontDistance,
      toW, normalMode]
    norm_num [← WithTop.coe_min, ← WithTop.coe_ofNat, WithTop.coe_lt_coe,
      WithTop.coe_le_coe, min_def]
  have h := c3_hysteresis_commit (initEngine "normal" normalMode)
    ⟨some 1, some 10, some 10, some 10⟩ 2 3 rfl (by norm_num)
    (by rw [hd]; exact fun hc => VState.noConfusion hc)
  refine ⟨h.2.2.1 2 (by norm_num), ?_⟩
  rw [h.2.2.2, hd]

/-- An obstacle dict `{'pos': (x, y), 'radius': r}` (physics.py); the
`radius` key is optional and `obstacle.get('radius', 0.5)` supplies the
default in the collision check. -/
structure Obstacle where
  x : ℚ
  y : ℚ
  radius : Option ℚ
  deriving DecidableEq, Repr

/-- PHYSICS_CONFIG['world_width'] (config.py). -/
def world_width : ℚ := 20

/-- PHYSICS_CONFIG['world_height'] (config.py). -/
def world_height : ℚ := 20

/-- The Vehicle fields touched by boundary and collision handling
(physics.py, class Vehicle). -/
structure Vehicle where
  x : ℚ
  y : ℚ
  heading : ℚ
  speed : ℚ
  radius : ℚ
  collision_count : ℕ
  in_collision : Bool
  deriving DecidableEq, Repr

/-- Vehicle._enforce_boundaries (physics.py lines 99-105): clamp the
position into `[radius, world − radius]` on both axes; no other field is
touched. -/
def enforce_boundaries (v : Vehicle) : Vehicle :=
  { v with x := max v.radius (min v.x (world_width - v.radius)),
           y := max v.radius (min v.y (world_height - v.radius)) }

/-- The per-obstacle overlap test inside Vehicle.check_collision:
`math.sqrt(dx*dx + dy*dy) < self.radius + obstacle_radius`.  Phrased
without the square root: for `0 ≤ s` the test is `dx² + dy² < s²`, and for
`s < 0` it is false either way. -/
def collides (v : Vehicle) (o : Obstacle) : Bool :=
  let orad := o.radius.getD (1/2)
  let dx := v.x - o.x
  let dy := v.y - o.y
  let s := v.radius + orad
  decide (0 ≤ s ∧ dx * dx + dy * dy < s * s)

/-- Whether some obstacle of the list overlaps the vehicle. -/
def hits (v : Vehicle) (obs : List Obstacle) : Bool :=
  obs.any (fun o => collides v o)

/-- Vehicle.check_collision (physics.py lines 107-134): scan the obstacle
list, return at the first overlap with `in_collision` set, and increment
the counter only when the previous check saw no overlap. -/
def check_collision (v : Vehicle) (obstacles : List Obstacle) :
    Vehicle × Bool :=
  match obstacles.find? (fun o => collides v o) with
  | some _ =>
      ({ v with in_collision := true,
                collision_count :=
                  v.collision_count + (if v.in_collision then 0 else 1) },
       true)
  | none => ({ v with in_collision := false }, false)

/-- A sequence of collision checks against per-tick obstacle snapshots. -/
def runChecks (v : Vehicle) (scenes : List (List Obstacle)) : Vehicle :=
  scenes.foldl (fun s obs => (check_collision s obs).1) v

lemma check_collision_spec (v : Vehicle) (obs : List Obstacle) :
    (check_collision v obs).1.x = v.x ∧
    (check_collision v obs).1.y = v.y ∧
    (check_collision v obs).1.radius = v.radius ∧
    (check_collision v obs).1.in_collision = hits v obs ∧
    (check_collision v obs).1.collision_count =
      v.collision_count +
        (if hits v obs = true then (if v.in_collision then 0 else 1) else 0) := by
  unfold check_collision hits
  cases h : obs.find? (fun o => collides v o) with
  | some o =>
      have ha : obs.any (fun o => collides v o) = true :=
        List.any_eq_true.mpr ⟨o, List.mem_of_find?_eq_some h, List.find?_some h⟩
      simp [ha]
  | none =>
      have ha : obs.any (fun o => collides v o) = false :=
        List.any_eq_false.mpr (fun o ho => by
          simpa using List.find?_eq_none.mp h o ho)
      simp [ha]

lemma collides_congr (v w : Vehicle) (o : Obstacle) (hx : w.x = v.x)
    (hy : w.y = v.y) (hr : w.radius = v.radius) :
    collides w o = collides v o := by
  unfold collides
  rw [hx, hy, hr]

lemma runChecks_geom (v : Vehicle) (scenes : List (List Obstacle)) :
    (runChecks v scenes).x = v.x ∧ (runChecks v scenes).y = v.y ∧
    (runChecks v scenes).radius = v.radius := by
  induction scenes generalizing v with
  | nil => exact ⟨rfl, rfl, rfl⟩
  | cons s rest ih =>
      obtain ⟨hx, hy, hr, _, _⟩ := check_collision_spec v s
      have h := ih (check_collision v s).1
      unfold runChecks at h ⊢
      simp only [List.foldl_cons]
      exact ⟨h.1.trans hx, h.2.1.trans hy, h.2.2.trans hr⟩

lemma hits_congr (v w : Vehicle) (obs : List Obstacle) (hx : w.x = v.x)
    (hy : w.y = v.y) (hr : w.radius = v.radius) : hits w obs = hits v obs := by
  unfold hits
  congr 1
  funext o
  rw [collides_congr v w o hx hy hr]

lemma runChecks_take_succ (v : Vehicle) (scenes : List (List Obstacle))
    (i : ℕ) (hi : i < scenes.length) :
    runChecks v (scenes.take (i + 1)) =
      (check_collision (runChecks v (scenes.take i)) (scenes.get ⟨i, hi⟩)).1 := by
  unfold runChecks
  have h : scenes.take (i + 1) = scenes.take i ++ [scenes.get ⟨i, hi⟩] := by
    rw [List.take_succ, List.getElem?_eq_getElem hi]
    simp
  rw [h, List.foldl_append]
  rfl

lemma runChecks_in_collision (v : Vehicle) (scenes : List (List Obstacle))
    (h0 : v.in_collision = false) :
    ∀ i, i ≤ scenes.length →
      (runChecks v (scenes.take i)).in_collision =
        (if i = 0 then false else hits v (scenes.getD (i - 1) [])) := by
  intro i
  induction i with
  | zero => intro _; simpa using h0
  | succ n _ =>
      intro hn
      have hn' : n < scenes.length := by omega
      rw [runChecks_take_succ v scenes n hn']
      obtain ⟨_, _, _, hic, _⟩ :=
        check_collision_spec (runChecks v (scenes.take n)) (scenes.get ⟨n, hn'⟩)
      obtain ⟨gx, gy, gr⟩ := runChecks_geom v (scenes.take n)
      rw [hic, hits_congr v _ _ gx gy gr]
      simp [List.getD_eq_getElem?_getD, List.getElem?_eq_getElem hn']

/-- C9: over any sequence of collision checks started out of collision, the
counter moves by at most one per check; it increases by exactly one on
check `i` iff some obstacle overlaps on that check and none overlapped on
the immediately preceding check; and it never increments while the vehicle
was already in collision. -/
theorem c9_collision_rising_edge (v : Vehicle) (scenes : List (List Obstacle))
    (i : ℕ) (hi : i < scenes.length) (h0 : v.in_collision = false) :
    ((runChecks v (scenes.take (i + 1))).collision_count =
        (runChecks v (scenes.take i)).collision_count + 1 ∨
      (runChecks v (scenes.take (i + 1))).collision_count =
        (runChecks v (scenes.take i)).collision_count) ∧
    ((runChecks v (scenes.take (i + 1))).collision_count =
        (runChecks v (scenes.take i)).collision_count + 1 ↔
      hits v (scenes.getD i []) = true ∧
      ∀ j, i = j + 1 → hits v (scenes.getD j []) = false) ∧
    ((runChecks v (scenes.take i)).in_collision = true →
      (runChecks v (scenes.take (i + 1))).collision_count =
        (runChecks v (scenes.take i)).collision_count) := by
  have hstep := runChecks_take_succ v scenes i hi
  obtain ⟨gx, gy, gr⟩ := runChecks_geom v (scenes.take i)
  obtain ⟨_, _, _, _, hcount⟩ :=
    check_collision_spec (runChecks v (scenes.take i)) (scenes.get ⟨i, hi⟩)
  rw [hits_congr v _ _ gx gy gr] at hcount
  have hic := runChecks_in_collision v scenes h0 i (le_of_lt hi)
  have hgi : scenes.getD i [] = scenes.get ⟨i, hi⟩ := by
    simp [List.getD_eq_getElem?_getD, List.getElem?_eq_getElem hi]
  have hprev : (∀ j, i = j + 1 → hits v (scenes.getD j []) = false) ↔
      (runChecks v (scenes.take i)).in_collision = false := by
    rcases Nat.eq_zero_or_pos i with hz | hpos
    · subst hz
      simp only [hic, if_pos rfl]
      constructor
      · intro _; rfl
      · intro _ j hj; omega
    · obtain ⟨j0, rfl⟩ : ∃ j0, i = j0 + 1 := ⟨i - 1, by omega⟩
      rw [hic, if_neg (by omega)]
      simp only [Nat.add_sub_cancel]
      constructor
      · intro h
        rw [← Bool.not_eq_true]
        rw [h j0 rfl]
        simp
      · intro h j hj
        have : j = j0 := by omega
        subst this
        rw [← Bool.not_eq_true] at h
        simpa using h
  rw [hstep, hcount, hgi]
  cases hA : hits v (scenes.get ⟨i, hi⟩) with
  | false =>
      refine ⟨Or.inr (by simp [hA]), ?_, fun _ => by simp [hA]⟩
      simp [hA]
  | true =>
      cases hB : (runChecks v (scenes.take i)).in_collision with
      | false =>
          refine ⟨Or.inl (by simp [hA, hB]), ?_,
            fun hB' => Bool.noConfusion hB'⟩
          simp only [hA, hB, if_true, if_false, iff_true, true_and]
          constructor
          · intro _
            exact hprev.mpr hB
          · intro _
            simp
      | true =>
          refine ⟨Or.inr (by simp [hA, hB]), ?_, fun _ => by simp [hA, hB]⟩
          simp only [hA, hB, if_true, true_and]
          constructor
          · intro h
            omega
          · intro h
            have := hprev.mp h
            rw [hB] at this
            cases this

/-- Witness for C9: a vehicle at the origin checked twice against the same
overlapping obstacle; the counter may only step by one (and in fact does
not step on the second check). -/
theorem c9_collision_rising_edge_witness :
    (1 < ([[⟨0, 0, some 1⟩], [⟨0, 0, some 1⟩]] : List (List Obstacle)).length) ∧
    ((runChecks ⟨0, 0, 0, 0, 1/2, 0, false⟩
        (([[⟨0, 0, some 1⟩], [⟨0, 0, some 1⟩]] :
          List (List Obstacle)).take (1 + 1))).collision_count =
      (runChecks ⟨0, 0, 0, 0, 1/2, 0, false⟩
        (([[⟨0, 0, some 1⟩], [⟨0, 0, some 1⟩]] :
          List (List Obstacle)).take 1)).collision_count + 1 ∨
     (runChecks ⟨0, 0, 0, 0, 1/2, 0, false⟩
        (([[⟨0, 0, some 1⟩], [⟨0, 0, some 1⟩]] :
          List (List Obstacle)).take (1 + 1))).collision_count =
      (runChecks ⟨0, 0, 0, 0, 1/2, 0, false⟩
        (([[⟨0, 0, some 1⟩], [⟨0, 0, some 1⟩]] :
          List (List Obstacle)).take 1)).collision_count) :=
  ⟨by decide,
   (c9_collision_rising_edge ⟨0, 0, 0, 0, 1/2, 0, false⟩
     [[⟨0, 0, some 1⟩], [⟨0, 0, some 1⟩]] 1 (by decide) rfl).1⟩

lemma danger_lt_of_bounds (p : Profile) (maxR : ℚ) (hd0 : 0 ≤ p.danger_threshold)
    (hd1 : p.danger_threshold * (3/2) < maxR) : p.danger_threshold < maxR := by
  nlinarith

lemma dangerValue_maxR (p : Profile) (maxR : ℚ) (hd0 : 0 ≤ p.danger_threshold)
    (hd1 : p.danger_threshold * (3/2) < maxR) (hw1 : p.warning_threshold < maxR) :
    dangerValue p maxR = 0 := by
  have hdm := danger_lt_of_bounds p maxR hd0 hd1
  unfold dangerValue
  rw [if_neg (not_le.mpr hdm), if_neg (not_le.mpr hw1)]

lemma c6aux_FL (p : Profile) (maxR a b c sp : ℚ) (cur : VState)
    (hd0 : 0 ≤ p.danger_threshold) (hd1 : p.danger_threshold * (3/2) < maxR)
    (hw1 : p.warning_threshold < maxR) (ha : a ≤ maxR) :
    calculate_hazard_score p ⟨none, some a, some b, some c⟩ =
      calculate_hazard_score p ⟨some maxR, some a, some b, some c⟩ ∧
    frontDistance ⟨none, some a, some b, some c⟩ =
      frontDistance ⟨some maxR, some a, some b, some c⟩ ∧
    determine_next_state p cur ⟨none, some a, some b, some c⟩ sp =
      determine_next_state p cur ⟨some maxR, some a, some b, some c⟩ sp := by
  have hdm := danger_lt_of_bounds p maxR hd0 hd1
  have hdv := dangerValue_maxR p maxR hd0 hd1 hw1
  have fmin1 : min (⊤ : WithTop ℚ) ((a : ℚ) : WithTop ℚ) = ((a : ℚ) : WithTop ℚ) :=
    min_eq_right le_top
  have fmin2 : min ((maxR : ℚ) : WithTop ℚ) ((a : ℚ) : WithTop ℚ) =
      ((a : ℚ) : WithTop ℚ) := min_eq_right (WithTop.coe_le_coe.mpr ha)
  have f1 : ((p.danger_threshold * (3/2) : ℚ) : WithTop ℚ) < ⊤ :=
    WithTop.coe_lt_top _
  have f2 : ((p.danger_threshold * (3/2) : ℚ) : WithTop ℚ) <
      ((maxR : ℚ) : WithTop ℚ) := WithTop.coe_lt_coe.mpr hd1
  have f3 : ¬ ((⊤ : WithTop ℚ) < ((p.danger_threshold : ℚ) : WithTop ℚ)) :=
    not_top_lt
  have f4 : ¬ (((maxR : ℚ) : WithTop ℚ) < ((p.danger_threshold : ℚ) : WithTop ℚ)) :=
    fun h => absurd (WithTop.coe_lt_coe.mp h) (not_lt.mpr (le_of_lt hdm))
  have f5 : ¬ ((⊤ : WithTop ℚ) < ((a : ℚ) : WithTop ℚ)) := not_top_lt
  have f6 : ¬ (((maxR : ℚ) : WithTop ℚ) < ((a : ℚ) : WithTop ℚ)) :=
    fun h => absurd (WithTop.coe_lt_coe.mp h) (not_lt.mpr ha)
  refine ⟨?_, ?_, ?_⟩
  · simp [calculate_hazard_score, presentReadings, hdv]
  · show min (toW none) (toW (some a)) = min (toW (some maxR)) (toW (some a))
    simp only [toW]
    rw [fmin1, fmin2]
  · cases cur <;>
      simp only [determine_next_state, toW] <;>
      simp [fmin1, fmin2, f1, f2, f3, f4, f5, f6, WithTop.coe_lt_top,
        ← WithTop.coe_mul]

lemma c6aux_FR (p : Profile) (maxR a b c sp : ℚ) (cur : VState)
    (hd0 : 0 ≤ p.danger_threshold) (hd1 : p.danger_threshold * (3/2) < maxR)
    (hw1 : p.warning_threshold < maxR) (ha : a ≤ maxR) :
    calculate_hazard_score p ⟨some a, none, some b, some c⟩ =
      calculate_hazard_score p ⟨some a, some maxR, some b, some c⟩ ∧
    frontDistance ⟨some a, none, some b, some c⟩ =
      frontDistance ⟨some a, some maxR, some b, some c⟩ ∧
    determine_next_state p cur ⟨some a, none, some b, some c⟩ sp =
      determine_next_state p cur ⟨some a, some maxR, some b, some c⟩ sp := by
  have hdm := danger_lt_of_bounds p maxR hd0 hd1
  have hdv := dangerValue_maxR p maxR hd0 hd1 hw1
  have fmin1 : min ((a : ℚ) : WithTop ℚ) (⊤ : WithTop ℚ) = ((a : ℚ) : WithTop ℚ) :=
    min_eq_left le_top
  have fmin2 : min ((a : ℚ) : WithTop ℚ) ((maxR : ℚ) : WithTop ℚ) =
      ((a : ℚ) : WithTop ℚ) := min_eq_left (WithTop.coe_le_coe.mpr ha)
  have f1 : ((p.danger_threshold * (3/2) : ℚ) : WithTop ℚ) < ⊤ :=
    WithTop.coe_lt_top _
  have f2 : ((p.danger_threshold * (3/2) : ℚ) : WithTop ℚ) <
      ((maxR : ℚ) : WithTop ℚ) := WithTop.coe_lt_coe.mpr hd1
  have f3 : ¬ ((⊤ : WithTop ℚ) < ((p.danger_threshold : ℚ) : WithTop ℚ)) :=
    not_top_lt
  have f4 : ¬ (((maxR : ℚ) : WithTop ℚ) < ((p.danger_threshold : ℚ) : WithTop ℚ)) :=
    fun h => absurd (WithTop.coe_lt_coe.mp h) (not_lt.mpr (le_of_lt hdm))
  refine ⟨?_, ?_, ?_⟩
  · simp [calculate_hazard_score, presentReadings, hdv]
  · show min (toW (some a)) (toW none) = min (toW (some a)) (toW (some maxR))
    simp only [toW]
    rw [fmin1, fmin2]
  · cases cur with
    | CRUISE =>
        simp only [determine_next_state, toW, fmin1, fmin2]
        by_cases hfr : ((a : ℚ) : WithTop ℚ) < ((p.danger_threshold : ℚ) : WithTop ℚ)
        · have haD : a < p.danger_threshold := WithTop.coe_lt_coe.mp hfr
          have h5 : ((a : ℚ) : WithTop ℚ) < (⊤ : WithTop ℚ) := WithTop.coe_lt_top a
          have h6 : ((a : ℚ) : WithTop ℚ) < ((maxR : ℚ) : WithTop ℚ) :=
            WithTop.coe_lt_coe.mpr (lt_of_lt_of_le haD (le_of_lt hdm))
          simp [hfr, f3, f4, h5, h6]
        · simp [hfr]
    | EMERGENCY_BRAKE =>
        simp only [determine_next_state, toW, fmin1, fmin2]
    | REVERSING =>
        simp only [determine_next_state, toW, fmin1, fmin2]
    | AVOID_LEFT =>
        simp only [determine_next_state, toW, fmin1, fmin2]
        simp [f3, f4, WithTop.coe_lt_top, ← WithTop.coe_mul, f2]
    | AVOID_RIGHT =>
        simp only [determine_next_state, toW, fmin1, fmin2]
        simp [f3, f4, WithTop.coe_lt_top, ← WithTop.coe_mul, f2]

lemma c6aux_BL (p : Profile) (maxR a b c sp : ℚ) (cur : VState)
    (hd0 : 0 ≤ p.danger_threshold) (hd1 : p.danger_threshold * (3/2) < maxR)
    (hw1 : p.warning_threshold < maxR) (hc : c ≤ maxR) :
    calculate_hazard_score p ⟨some a, some b, none, some c⟩ =
      calculate_hazard_score p ⟨some a, some b, some maxR, some c⟩ ∧
    frontDistance ⟨some a, some b, none, some c⟩ =
      frontDistance ⟨some a, some b, some maxR, some c⟩ ∧
    determine_next_state p cur ⟨some a, some b, none, some c⟩ sp =
      determine_next_state p cur ⟨some a, some b, some maxR, some c⟩ sp := by
  have hdm := danger_lt_of_bounds p maxR hd0 hd1
  have hdv := dangerValue_maxR p maxR hd0 hd1 hw1
  have fmin1 : min (⊤ : WithTop ℚ) ((c : ℚ) : WithTop ℚ) = ((c : ℚ) : WithTop ℚ) :=
    min_eq_right le_top
  have fmin2 : min ((maxR : ℚ) : WithTop ℚ) ((c : ℚ) : WithTop ℚ) =
      ((c : ℚ) : WithTop ℚ) := min_eq_right (WithTop.coe_le_coe.mpr hc)
  have hnn : (0 : ℚ) ≤ max (max 0 (dangerValue p a)) (dangerValue p b) :=
    le_trans (le_max_left _ _) (le_max_left _ _)
  refine ⟨?_, rfl, ?_⟩
  · simp only [calculate_hazard_score, presentReadings, List.filterMap, List.foldl]
    rw [hdv, max_eq_left hnn]
  · cases cur <;> simp only [determine_next_state, toW] <;>
      simp [fmin1, fmin2]

lemma c6aux_BR (p : Profile) (maxR a b c sp : ℚ) (cur : VState)
    (hd0 : 0 ≤ p.danger_threshold) (hd1 : p.danger_threshold * (3/2) < maxR)
    (hw1 : p.warning_threshold < maxR) (hc : c ≤ maxR) :
    calculate_hazard_score p ⟨some a, some b, some c, none⟩ =
      calculate_hazard_score p ⟨some a, some b, some c, some maxR⟩ ∧
    frontDistance ⟨some a, some b, some c, none⟩ =
      frontDistance ⟨some a, some b, some c, some maxR⟩ ∧
    determine_next_state p cur ⟨some a, some b, some c, none⟩ sp =
      determine_next_state p cur ⟨some a, some b, some c, some maxR⟩ sp := by
  have hdm := danger_lt_of_bounds p maxR hd0 hd1
  have hdv := dangerValue_maxR p maxR hd0 hd1 hw1
  have fmin1 : min ((c : ℚ) : WithTop ℚ) (⊤ : WithTop ℚ) = ((c : ℚ) : WithTop ℚ) :=
    min_eq_left le_top
  have fmin2 : min ((c : ℚ) : WithTop ℚ) ((maxR : ℚ) : WithTop ℚ) =
      ((c : ℚ) : WithTop ℚ) := min_eq_left (WithTop.coe_le_coe.mpr hc)
  have hnn : (0 : ℚ) ≤ max (max (max 0 (dangerValue p a)) (dangerValue p b))
      (dangerValue p c) :=
    le_trans (le_max_left _ _) (le_trans (le_max_left _ _) (le_max_left _ _))
  refine ⟨?_, rfl, ?_⟩
  · simp only [calculate_hazard_score, presentReadings, List.filterMap, List.foldl]
    rw [hdv, max_eq_left hnn]
  · cases cur <;> simp only [determine_next_state, toW] <;>
      simp [fmin1, fmin2]

/-- C6 (amended): with exactly one of the four sensor keys absent, the
decision operations (hazard score, TTC, next-state) raise no error — the
absent key reads as `+∞` — and, provided every present reading is at most
`max_range` and the profile thresholds sit below `max_range`, they produce
the same results as the map with the missing key set to `max_range`. -/
theorem c6_missing_sensor_key_defaults (p : Profile) (maxR a b c sp : ℚ)
    (cur : VState)
    (hd0 : 0 ≤ p.danger_threshold) (hd1 : p.danger_threshold * (3/2) < maxR)
    (hw1 : p.warning_threshold < maxR)
    (ha : a ≤ maxR) (hb : b ≤ maxR) (hc : c ≤ maxR) :
    (calculate_hazard_score p ⟨none, some a, some b, some c⟩ =
       calculate_hazard_score p ⟨some maxR, some a, some b, some c⟩ ∧
     calculate_ttc (frontDistance ⟨none, some a, some b, some c⟩) sp =
       calculate_ttc (frontDistance ⟨some maxR, some a, some b, some c⟩) sp ∧
     determine_next_state p cur ⟨none, some a, some b, some c⟩ sp =
       determine_next_state p cur ⟨some maxR, some a, some b, some c⟩ sp) ∧
    (calculate_hazard_score p ⟨some a, none, some b, some c⟩ =
       calculate_hazard_score p ⟨some a, some maxR, some b, some c⟩ ∧
     calculate_ttc (frontDistance ⟨some a, none, some b, some c⟩) sp =
       calculate_ttc (frontDistance ⟨some a, some maxR, some b, some c⟩) sp ∧
     determine_next_state p cur ⟨some a, none, some b, some c⟩ sp =
       determine_next_state p cur ⟨some a, some maxR, some b, some c⟩ sp) ∧
    (calculate_hazard_score p ⟨some a, some b, none, some c⟩ =
       calculate_hazard_score p ⟨some a, some b, some maxR, some c⟩ ∧
     calculate_ttc (frontDistance ⟨some a, some b, none, some c⟩) sp =
       calculate_ttc (frontDistance ⟨some a, some b, some maxR, some c⟩) sp ∧
     determine_next_state p cur ⟨some a, some b, none, some c⟩ sp =
       determine_next_state p cur ⟨some a, some b, some maxR, some c⟩ sp) ∧
    (calculate_hazard_score p ⟨some a, some b, some c, none⟩ =
       calculate_hazard_score p ⟨some a, some b, some c, some maxR⟩ ∧
     calculate_ttc (frontDistance ⟨some a, some b, some c, none⟩) sp =
       calculate_ttc (frontDistance ⟨some a, some b, some c, some maxR⟩) sp ∧
     determine_next_state p cur ⟨some a, some b, some c, none⟩ sp =
       determine_next_state p cur ⟨some a, some b, some c, some maxR⟩ sp) := by
  obtain ⟨h1, h2, h3⟩ := c6aux_FL p maxR a b c sp cur hd0 hd1 hw1 ha
  obtain ⟨g1, g2, g3⟩ := c6aux_FR p maxR a b c sp cur hd0 hd1 hw1 ha
  obtain ⟨i1, i2, i3⟩ := c6aux_BL p maxR a b c sp cur hd0 hd1 hw1 hc
  obtain ⟨j1, j2, j3⟩ := c6aux_BR p maxR a b c sp cur hd0 hd1 hw1 hc
  exact ⟨⟨h1, by rw [h2], h3⟩, ⟨g1, by rw [g2], g3⟩,
    ⟨i1, by rw [i2], i3⟩, ⟨j1, by rw [j2], j3⟩⟩

/-- Witness for C6: normal profile, `max_range = 10`, readings 5, speed 1. -/
theorem c6_missing_sensor_key_defaults_witness :
    calculate_hazard_score normalMode ⟨none, some 5, some 5, some 5⟩ =
      calculate_hazard_score normalMode ⟨some 10, some 5, some 5, some 5⟩ ∧
    calculate_ttc (frontDistance ⟨none, some 5, some 5, some 5⟩) 1 =
      calculate_ttc (frontDistance ⟨some 10, some 5, some 5, some 5⟩) 1 ∧
    determine_next_state normalMode VState.CRUISE ⟨none, some 5, some 5, some 5⟩ 1 =
      determine_next_state normalMode VState.CRUISE
        ⟨some 10, some 5, some 5, some 5⟩ 1 :=
  (c6_missing_sensor_key_defaults normalMode 10 5 5 5 1 VState.CRUISE
    (by norm_num [normalMode]) (by norm_num [normalMode])
    (by norm_num [normalMode])
    (by norm_num) (by norm_num) (by norm_num)).1

/-- C6 counterexample: the code defaults an absent key to `+∞`, not
`max_range`; with `FL` absent and `FR = 100 > max_range = 10` the TTC at
speed 1 is 100, whereas mapping the missing key to `max_range` gives 10. -/
theorem c6_missing_sensor_key_counterexample :
    calculate_ttc (frontDistance ⟨none, some 100, some 10, some 10⟩) 1 ≠
      calculate_ttc (frontDistance ⟨some 10, some 100, some 10, some 10⟩) 1 := by
  have h1 : calculate_ttc (frontDistance ⟨none, some 100, some 10, some 10⟩) 1 =
      ((100 : ℚ) : WithTop ℚ) := by
    have hf : frontDistance ⟨none, some 100, some 10, some 10⟩ =
        ((100 : ℚ) : WithTop ℚ) := min_eq_right le_top
    rw [hf, calculate_ttc, if_neg (by norm_num), WithTop.map_coe]
    norm_num
  have h2 : calculate_ttc (frontDistance ⟨some 10, some 100, some 10, some 10⟩) 1 =
      ((10 : ℚ) : WithTop ℚ) := by
    have hf : frontDistance ⟨some 10, some 100, some 10, some 10⟩ =
        ((10 : ℚ) : WithTop ℚ) :=
      min_eq_left (WithTop.coe_le_coe.mpr (by norm_num))
    rw [hf, calculate_ttc, if_neg (by norm_num), WithTop.map_coe]
    norm_num
  rw [h1, h2]
  intro h
  have := WithTop.coe_eq_coe.mp h
  norm_num at this

/-- Python float modulo with the sign of the (positive) modulus:
`x % y = x − y·⌊x / y⌋`, as used by `theta % (2 * math.pi)`. -/
noncomputable def rmod (x y : ℝ) : ℝ := x - y * (⌊x / y⌋ : ℤ)

/-- The pose fields of the Car class (src/src/physics.py). -/
structure CarState where
  x : ℝ
  y : ℝ
  theta : ℝ
  v : ℝ

/-- The left/right-wall block of Car._handle_boundaries
(src/src/physics.py lines 122-130): clamp, `v *= -0.5`,
`theta = (π − theta) % 2π`. -/
noncomputable def handle_x_walls (r W : ℝ) (s : CarState) : CarState :=
  if s.x - r < 0 then
    ⟨r, s.y, rmod (Real.pi - s.theta) (2 * Real.pi), -(1/2) * s.v⟩
  else if s.x + r > W then
    ⟨W - r, s.y, rmod (Real.pi - s.theta) (2 * Real.pi), -(1/2) * s.v⟩
  else s

/-- The top/bottom-wall block of Car._handle_boundaries
(src/src/physics.py lines 132-140): clamp, `v *= -0.5`,
`theta = (2π − theta) % 2π`. -/
noncomputable def handle_y_walls (r H : ℝ) (s : CarState) : CarState :=
  if s.y - r < 0 then
    ⟨s.x, r, rmod (2 * Real.pi - s.theta) (2 * Real.pi), -(1/2) * s.v⟩
  else if s.y + r > H then
    ⟨s.x, H - r, rmod (2 * Real.pi - s.theta) (2 * Real.pi), -(1/2) * s.v⟩
  else s

/-- Car._handle_boundaries (src/src/physics.py lines 120-140): the x-wall
block runs first, then the y-wall block on the already-updated state. -/
noncomputable def handle_boundaries (r W H : ℝ) (s : CarState) : CarState :=
  handle_y_walls r H (handle_x_walls r W s)

lemma handle_x_walls_inside (r W : ℝ) (hW : 2 * r ≤ W) (s : CarState) :
    r ≤ (handle_x_walls r W s).x ∧ (handle_x_walls r W s).x + r ≤ W := by
  unfold handle_x_walls
  split_ifs with h1 h2 <;> constructor <;> (try simp) <;> linarith

lemma handle_x_walls_y (r W : ℝ) (s : CarState) :
    (handle_x_walls r W s).y = s.y := by
  unfold handle_x_walls
  split_ifs <;> rfl

lemma handle_y_walls_x (r H : ℝ) (s : CarState) :
    (handle_y_walls r H s).x = s.x := by
  unfold handle_y_walls
  split_ifs <;> rfl

lemma handle_y_walls_inside (r H : ℝ) (hH : 2 * r ≤ H) (s : CarState) :
    r ≤ (handle_y_walls r H s).y ∧ (handle_y_walls r H s).y + r ≤ H := by
  unfold handle_y_walls
  split_ifs with h1 h2 <;> constructor <;> (try simp) <;> linarith

/-- C4 (amended): in the Car engine (src/src/physics.py), a tick whose
updated position crosses exactly one world edge ends with the position
clamped to that edge, the speed multiplied by `−0.5`, and the heading
mirror-reflected (`(π − θ) mod 2π` at a vertical edge, `(2π − θ) mod 2π`
at a horizontal one); after boundary handling the center-radius footprint
always lies inside world bounds.  The legacy Vehicle engine (physics.py)
instead only clamps the position: its speed and heading are untouched. -/
theorem c4_boundary_bounce (r W H x y θ vel : ℝ)
    (hW : 2 * r ≤ W) (hH : 2 * r ≤ H) :
    (x - r < 0 → r ≤ y → y + r ≤ H →
      handle_boundaries r W H ⟨x, y, θ, vel⟩ =
        ⟨r, y, rmod (Real.pi - θ) (2 * Real.pi), -(1/2) * vel⟩) ∧
    (0 ≤ x - r → W < x + r → r ≤ y → y + r ≤ H →
      handle_boundaries r W H ⟨x, y, θ, vel⟩ =
        ⟨W - r, y, rmod (Real.pi - θ) (2 * Real.pi), -(1/2) * vel⟩) ∧
    (0 ≤ x - r → x + r ≤ W → y - r < 0 →
      handle_boundaries r W H ⟨x, y, θ, vel⟩ =
        ⟨x, r, rmod (2 * Real.pi - θ) (2 * Real.pi), -(1/2) * vel⟩) ∧
    (0 ≤ x - r → x + r ≤ W → 0 ≤ y - r → H < y + r →
      handle_boundaries r W H ⟨x, y, θ, vel⟩ =
        ⟨x, H - r, rmod (2 * Real.pi - θ) (2 * Real.pi), -(1/2) * vel⟩) ∧
    (∀ s : CarState, r ≤ (handle_boundaries r W H s).x ∧
      (handle_boundaries r W H s).x + r ≤ W ∧
      r ≤ (handle_boundaries r W H s).y ∧
      (handle_boundaries r W H s).y + r ≤ H) ∧
    (∀ w : Vehicle, (enforce_boundaries w).speed = w.speed ∧
      (enforce_boundaries w).heading = w.heading ∧
      (enforce_boundaries w).x = max w.radius (min w.x (world_width - w.radius)) ∧
      (enforce_boundaries w).y =
        max w.radius (min w.y (world_height - w.radius))) := by
  refine ⟨?_, ?_, ?_, ?_, ?_, fun w => ⟨rfl, rfl, rfl, rfl⟩⟩
  · intro h1 h2 h3
    unfold handle_boundaries
    rw [show handle_x_walls r W ⟨x, y, θ, vel⟩ =
        ⟨r, y, rmod (Real.pi - θ) (2 * Real.pi), -(1/2) * vel⟩ from by
      unfold handle_x_walls
      rw [if_pos (show (⟨x, y, θ, vel⟩ : CarState).x - r < 0 from h1)]]
    unfold handle_y_walls
    rw [if_neg (show ¬ ((⟨r, y, rmod (Real.pi - θ) (2 * Real.pi),
          -(1/2) * vel⟩ : CarState).y - r < 0) from
        not_lt.mpr (show (0 : ℝ) ≤ y - r from by linarith)),
      if_neg (show ¬ ((⟨r, y, rmod (Real.pi - θ) (2 * Real.pi),
          -(1/2) * vel⟩ : CarState).y + r > H) from not_lt.mpr h3)]
  · intro h0 h1 h2 h3
    unfold handle_boundaries
    rw [show handle_x_walls r W ⟨x, y, θ, vel⟩ =
        ⟨W - r, y, rmod (Real.pi - θ) (2 * Real.pi), -(1/2) * vel⟩ from by
      unfold handle_x_walls
      rw [if_neg (show ¬ ((⟨x, y, θ, vel⟩ : CarState).x - r < 0) from
          not_lt.mpr h0),
        if_pos (show (⟨x, y, θ, vel⟩ : CarState).x + r > W from h1)]]
    unfold handle_y_walls
    rw [if_neg (show ¬ ((⟨W - r, y, rmod (Real.pi - θ) (2 * Real.pi),
          -(1/2) * vel⟩ : CarState).y - r < 0) from
        not_lt.mpr (show (0 : ℝ) ≤ y - r from by linarith)),
      if_neg (show ¬ ((⟨W - r, y, rmod (Real.pi - θ) (2 * Real.pi),
          -(1/2) * vel⟩ : CarState).y + r > H) from not_lt.mpr h3)]
  · intro h0 h1 h2
    unfold handle_boundaries
    rw [show handle_x_walls r W ⟨x, y, θ, vel⟩ = ⟨x, y, θ, vel⟩ from by
      unfold handle_x_walls
      rw [if_neg (show ¬ ((⟨x, y, θ, vel⟩ : CarState).x - r < 0) from
          not_lt.mpr h0),
        if_neg (show ¬ ((⟨x, y, θ, vel⟩ : CarState).x + r > W) from
          not_lt.mpr h1)]]
    unfold handle_y_walls
    rw [if_pos (show (⟨x, y, θ, vel⟩ : CarState).y - r < 0 from h2)]
  · intro h0 h1 h2 h3
    unfold handle_boundaries
    rw [show handle_x_walls r W ⟨x, y, θ, vel⟩ = ⟨x, y, θ, vel⟩ from by
      unfold handle_x_walls
      rw [if_neg (show ¬ ((⟨x, y, θ, vel⟩ : CarState).x - r < 0) from
          not_lt.mpr h0),
        if_neg (show ¬ ((⟨x, y, θ, vel⟩ : CarState).x + r > W) from
          not_lt.mpr h1)]]
    unfold handle_y_walls
    rw [if_neg (show ¬ ((⟨x, y, θ, vel⟩ : CarState).y - r < 0) from
        not_lt.mpr h2),
      if_pos (show (⟨x, y, θ, vel⟩ : CarState).y + r > H from h3)]
  · intro s
    unfold handle_boundaries
    refine ⟨?_, ?_, ?_, ?_⟩
    · rw [handle_y_walls_x]
      exact (handle_x_walls_inside r W hW s).1
    · rw [handle_y_walls_x]
      exact (handle_x_walls_inside r W hW s).2
    · exact (handle_y_walls_inside r H hH _).1
    · exact (handle_y_walls_inside r H hH _).2

/-- Witness for C4: a car at `x = −1` (radius ½, world 20×20) driven through
the left wall, heading 0, speed 3. -/
theorem c4_boundary_bounce_witness :
    handle_boundaries (1/2) 20 20 ⟨-1, 10, 0, 3⟩ =
      ⟨1/2, 10, rmod (Real.pi - 0) (2 * Real.pi), -(1/2) * 3⟩ :=
  (c4_boundary_bounce (1/2) 20 20 (-1) 10 0 3 (by norm_num) (by norm_num)).1
    (by norm_num) (by norm_num) (by norm_num)

/-- C4 counterexample: in the legacy Vehicle engine (physics.py), driving to
`x = 25` in the 20×20 world ends the tick with the position clamped but the
speed still `3` — not multiplied by `−0.5` — and the heading unchanged. -/
theorem c4_boundary_counterexample :
    (enforce_boundaries ⟨25, 10, 0, 3, 1/2, 0, false⟩).x = 39/2 ∧
    (enforce_boundaries ⟨25, 10, 0, 3, 1/2, 0, false⟩).speed = 3 ∧
    (enforce_boundaries ⟨25, 10, 0, 3, 1/2, 0, false⟩).heading = 0 ∧
    (3 : ℚ) ≠ -(1/2) * 3 := by
  refine ⟨?_, rfl, rfl, by norm_num⟩
  show max (1/2 : ℚ) (min 25 (world_width - 1/2)) = 39/2
  rw [world_width]
  norm_num [min_def, max_def]

/-- SensorArray._raycast_circle (sensors.py lines 122-178): quadratic
ray–circle intersection; degenerate directions short-circuit to
`max_range`, non-real roots yield `max_range`, otherwise the smallest root
beyond the self-intersection epsilon `0.01` is taken (Python's
`min([t for t in [t1, t2] if t > 0.01])`) and clamped to `max_range`. -/
noncomputable def raycast_circle (sx sy rdx rdy cx cy cr maxR : ℝ) : ℝ :=
  let fx := sx - cx
  let fy := sy - cy
  let a := rdx * rdx + rdy * rdy
  if a < 1/1000000000 then maxR
  else
    let b := 2 * (fx * rdx + fy * rdy)
    let c := fx * fx + fy * fy - cr * cr
    let disc := b * b - 4 * a * c
    if disc < 0 then maxR
    else
      let sq := Real.sqrt disc
      let t1 := (-b - sq) / (2 * a)
      let t2 := (-b + sq) / (2 * a)
      if 1/100 < t1 then
        if 1/100 < t2 then min (min t1 t2) maxR else min t1 maxR
      else if 1/100 < t2 then min t2 maxR
      else maxR

/-- The inner loop of SensorArray.raycast for one sensor ray (sensors.py
lines 106-118): running minimum of the per-obstacle raycast distances,
starting from `max_range`. -/
noncomputable def sensor_min_distance (sx sy rdx rdy : ℝ)
    (obstacles : List (ℝ × ℝ × ℝ)) (maxR : ℝ) : ℝ :=
  obstacles.foldl
    (fun acc o =>
      if raycast_circle sx sy rdx rdy o.1 o.2.1 o.2.2 maxR < acc then
        raycast_circle sx sy rdx rdy o.1 o.2.1 o.2.2 maxR
      else acc)
    maxR

/-- SensorArray.raycast for the sensor at angular offset `off`: ray
direction `(cos(θ + off), sin(θ + off))` from the car center. -/
noncomputable def sense (cx cy θ off maxR : ℝ)
    (obstacles : List (ℝ × ℝ × ℝ)) : ℝ :=
  sensor_min_distance cx cy (Real.cos (θ + off)) (Real.sin (θ + off))
    obstacles maxR

/-- The four sensor angular offsets FL 45°, FR −45°, BL 135°, BR −135°,
in radians. -/
noncomputable def sensor_offset_values : List ℝ :=
  [Real.pi / 4, -(Real.pi / 4), 3 * Real.pi / 4, -(3 * Real.pi / 4)]

lemma raycast_circle_on_ray (sx sy ux uy d cr maxR : ℝ)
    (hu : ux * ux + uy * uy = 1) (hr : 0 ≤ cr) (hrd : cr < d)
    (heps : 1/100 < d - cr) (hmax : d - cr ≤ maxR) :
    raycast_circle sx sy ux uy (sx + d * ux) (sy + d * uy) cr maxR = d - cr := by
  simp only [raycast_circle]
  rw [hu]
  rw [if_neg (by norm_num)]
  rw [show 2 * ((sx - (sx + d * ux)) * ux + (sy - (sy + d * uy)) * uy) = -(2 * d)
      from by linear_combination (-(2 : ℝ)) * d * hu]
  rw [show (sx - (sx + d * ux)) * (sx - (sx + d * ux)) +
        (sy - (sy + d * uy)) * (sy - (sy + d * uy)) - cr * cr = d * d - cr * cr
      from by linear_combination d * d * hu]
  rw [show -(2 * d) * -(2 * d) - 4 * 1 * (d * d - cr * cr) = (2 * cr)^2
      from by ring]
  rw [if_neg (not_lt.mpr (sq_nonneg _))]
  rw [Real.sqrt_sq (by linarith : (0 : ℝ) ≤ 2 * cr)]
  rw [show (-(-(2 * d)) - 2 * cr) / (2 * 1) = d - cr from by ring]
  rw [show (-(-(2 * d)) + 2 * cr) / (2 * 1) = d + cr from by ring]
  rw [if_pos heps, if_pos (show (1 : ℝ)/100 < d + cr from by linarith)]
  rw [min_eq_left (show d - cr ≤ d + cr from by linarith), min_eq_left hmax]

lemma raycast_circle_off_ray (sx sy ux uy ex ey d cr maxR : ℝ)
    (hu : ux * ux + uy * uy = 1) (he : ex * ex + ey * ey = 1)
    (hdot : ex * ux + ey * uy ≤ 0) (hrd : cr < d) (hr : 0 ≤ cr) :
    raycast_circle sx sy ex ey (sx + d * ux) (sy + d * uy) cr maxR = maxR := by
  have hd : 0 < d := lt_of_le_of_lt hr hrd
  simp only [raycast_circle]
  rw [he]
  rw [if_neg (by norm_num)]
  generalize hbg : 2 * ((sx - (sx + d * ux)) * ex + (sy - (sy + d * uy)) * ey) = b
  generalize hcg : (sx - (sx + d * ux)) * (sx - (sx + d * ux)) +
    (sy - (sy + d * uy)) * (sy - (sy + d * uy)) - cr * cr = c
  have hbval : b = -(2 * d) * (ex * ux + ey * uy) := by rw [← hbg]; ring
  have hb0 : 0 ≤ b := by
    rw [hbval]
    nlinarith
  have hcval : c = d * d * (ux * ux + uy * uy) - cr * cr := by rw [← hcg]; ring
  have hc0 : 0 < c := by
    rw [hcval, hu]
    nlinarith
  by_cases hdisc : b * b - 4 * 1 * c < 0
  · rw [if_pos hdisc]
  · rw [if_neg hdisc]
    have hdnn : 0 ≤ b * b - 4 * 1 * c := not_lt.mp hdisc
    have hsq : Real.sqrt (b * b - 4 * 1 * c) < b := by
      have h1 : b * b - 4 * 1 * c < b * b := by nlinarith
      have h2 : Real.sqrt (b * b - 4 * 1 * c) < Real.sqrt (b * b) :=
        Real.sqrt_lt_sqrt hdnn h1
      have h3 : Real.sqrt (b * b) = b := by
        rw [show b * b = b ^ 2 from by ring, Real.sqrt_sq hb0]
      rwa [h3] at h2
    have hnn : 0 ≤ Real.sqrt (b * b - 4 * 1 * c) := Real.sqrt_nonneg _
    rw [if_neg (not_lt.mpr
      (show (-b - Real.sqrt (b * b - 4 * 1 * c)) / (2 * 1) ≤ (1 : ℝ)/100 from by
        have h2 : -b - Real.sqrt (b * b - 4 * 1 * c) ≤ 0 := by linarith
        have h3 : (-b - Real.sqrt (b * b - 4 * 1 * c)) / (2 * 1) ≤ 0 :=
          div_nonpos_of_nonpos_of_nonneg h2 (by norm_num)
        linarith))]
    rw [if_neg (not_lt.mpr
      (show (-b + Real.sqrt (b * b - 4 * 1 * c)) / (2 * 1) ≤ (1 : ℝ)/100 from by
        have h2 : -b + Real.sqrt (b * b - 4 * 1 * c) ≤ 0 := by linarith
        have h3 : (-b + Real.sqrt (b * b - 4 * 1 * c)) / (2 * 1) ≤ 0 :=
          div_nonpos_of_nonpos_of_nonneg h2 (by norm_num)
        linarith))]

lemma raycast_circle_degenerate (sx sy cx cy cr maxR : ℝ) :
    raycast_circle sx sy 0 0 cx cy cr maxR = maxR := by
  simp only [raycast_circle]
  rw [if_pos (by norm_num)]

lemma cos_three_pi_div_two : Real.cos (3 * Real.pi / 2) = 0 := by
  rw [show 3 * Real.pi / 2 = Real.pi + Real.pi / 2 from by ring, Real.cos_add,
    Real.cos_pi_div_two, Real.sin_pi]
  ring

lemma offset_cos_nonpos :
    ∀ o1 ∈ sensor_offset_values, ∀ o2 ∈ sensor_offset_values,
      o1 ≠ o2 → Real.cos (o2 - o1) ≤ 0 := by
  intro o1 h1 o2 h2 hne
  simp only [sensor_offset_values, List.mem_cons, List.mem_singleton,
    List.not_mem_nil, or_false] at h1 h2
  rcases h1 with rfl | rfl | rfl | rfl <;> rcases h2 with rfl | rfl | rfl | rfl
  · exact absurd rfl hne
  · rw [show -(Real.pi / 4) - Real.pi / 4 = -(Real.pi / 2) from by ring,
      Real.cos_neg, Real.cos_pi_div_two]
  · rw [show 3 * Real.pi / 4 - Real.pi / 4 = Real.pi / 2 from by ring,
      Real.cos_pi_div_two]
  · rw [show -(3 * Real.pi / 4) - Real.pi / 4 = -Real.pi from by ring,
      Real.cos_neg, Real.cos_pi]
    norm_num
  · rw [show Real.pi / 4 - -(Real.pi / 4) = Real.pi / 2 from by ring,
      Real.cos_pi_div_two]
  · exact absurd rfl hne
  · rw [show 3 * Real.pi / 4 - -(Real.pi / 4) = Real.pi from by ring,
      Real.cos_pi]
    norm_num
  · rw [show -(3 * Real.pi / 4) - -(Real.pi / 4) = -(Real.pi / 2) from by ring,
      Real.cos_neg, Real.cos_pi_div_two]
  · rw [show Real.pi / 4 - 3 * Real.pi / 4 = -(Real.pi / 2) from by ring,
      Real.cos_neg, Real.cos_pi_div_two]
  · rw [show -(Real.pi / 4) - 3 * Real.pi / 4 = -Real.pi from by ring,
      Real.cos_neg, Real.cos_pi]
    norm_num
  · exact absurd rfl hne
  · rw [show -(3 * Real.pi / 4) - 3 * Real.pi / 4 = -(3 * Real.pi / 2) from by
      ring, Real.cos_neg, cos_three_pi_div_two]
  · rw [show Real.pi / 4 - -(3 * Real.pi / 4) = Real.pi from by ring,
      Real.cos_pi]
    norm_num
  · rw [show -(Real.pi / 4) - -(3 * Real.pi / 4) = Real.pi / 2 from by ring,
      Real.cos_pi_div_two]
  · rw [show 3 * Real.pi / 4 - -(3 * Real.pi / 4) = 3 * Real.pi / 2 from by
      ring, cos_three_pi_div_two]
  · exact absurd rfl hne

/-- C8: a single obstacle of radius `r` centered on one sensor's ray at
distance `d` (with `r < d`, `d − r` beyond the 0.01 epsilon and below
`max_range`) makes that sensor read exactly `d − r`, while every other
sensor of the four-offset array reads `max_range`; a degenerate zero-length
ray direction short-circuits to `max_range`, and an empty scene reads
`max_range`. -/
theorem c8_raycast_single_obstacle (cx cy θ d cr maxR : ℝ) (o : ℝ)
    (ho : o ∈ sensor_offset_values)
    (hr : 0 ≤ cr) (hrd : cr < d) (heps : 1/100 < d - cr)
    (hmax : d - cr < maxR) :
    (sense cx cy θ o maxR
      [(cx + d * Real.cos (θ + o), cy + d * Real.sin (θ + o), cr)] = d - cr) ∧
    (∀ o2 ∈ sensor_offset_values, o2 ≠ o →
      sense cx cy θ o2 maxR
        [(cx + d * Real.cos (θ + o), cy + d * Real.sin (θ + o), cr)] = maxR) ∧
    (∀ sx sy ox oy orad, raycast_circle sx sy 0 0 ox oy orad maxR = maxR) ∧
    (∀ off, sense cx cy θ off maxR [] = maxR) := by
  have hu : Real.cos (θ + o) * Real.cos (θ + o) +
      Real.sin (θ + o) * Real.sin (θ + o) = 1 := by
    linear_combination Real.cos_sq_add_sin_sq (θ + o)
  refine ⟨?_, ?_,
    fun sx sy ox oy orad => raycast_circle_degenerate sx sy ox oy orad maxR,
    fun off => rfl⟩
  · have hrc := raycast_circle_on_ray cx cy (Real.cos (θ + o))
      (Real.sin (θ + o)) d cr maxR hu hr hrd heps (le_of_lt hmax)
    simp only [sense, sensor_min_distance, List.foldl]
    rw [hrc, if_pos hmax]
  · intro o2 ho2 hne
    have he : Real.cos (θ + o2) * Real.cos (θ + o2) +
        Real.sin (θ + o2) * Real.sin (θ + o2) = 1 := by
      linear_combination Real.cos_sq_add_sin_sq (θ + o2)
    have hdot : Real.cos (θ + o2) * Real.cos (θ + o) +
        Real.sin (θ + o2) * Real.sin (θ + o) ≤ 0 := by
      have hc : Real.cos (θ + o2) * Real.cos (θ + o) +
          Real.sin (θ + o2) * Real.sin (θ + o) =
          Real.cos ((θ + o2) - (θ + o)) := (Real.cos_sub _ _).symm
      rw [hc, show (θ + o2) - (θ + o) = o2 - o from by ring]
      exact offset_cos_nonpos o ho o2 ho2 (fun h => hne h.symm)
    have hrc := raycast_circle_off_ray cx cy (Real.cos (θ + o))
      (Real.sin (θ + o)) (Real.cos (θ + o2)) (Real.sin (θ + o2)) d cr maxR
      hu he hdot hrd hr
    simp only [sense, sensor_min_distance, List.foldl]
    rw [hrc, if_neg (lt_irrefl maxR)]

/-- Witness for C8: obstacle of radius 1 on the FL ray (offset `π/4`) at
distance 5, `max_range = 10`; FL reads 4, FR reads 10. -/
theorem c8_raycast_single_obstacle_witness :
    sense 0 0 0 (Real.pi / 4) 10
      [(0 + 5 * Real.cos (0 + Real.pi / 4),
        0 + 5 * Real.sin (0 + Real.pi / 4), 1)] = 5 - 1 ∧
    sense 0 0 0 (-(Real.pi / 4)) 10
      [(0 + 5 * Real.cos (0 + Real.pi / 4),
        0 + 5 * Real.sin (0 + Real.pi / 4), 1)] = 10 := by
  have h := c8_raycast_single_obstacle 0 0 0 5 1 10 (Real.pi / 4)
    (by simp [sensor_offset_values]) (by norm_num) (by norm_num)
    (by norm_num) (by norm_num)
  exact ⟨h.1, h.2.1 (-(Real.pi / 4)) (by simp [sensor_offset_values])
    (by intro hq; nlinarith [Real.pi_pos])⟩

end AutoCar
